import Mathlib

/-!
Verification of the loan lifecycle and calculation engine of the
Loan-management-and-locker backend.

The definitions below are a shallow embedding of the Python source:

* `src/backend/utils/calculations.py` — EMI formulas and late fees;
* `src/backend/server.py` — the penalty, auto-lock and reminder sweeps,
  the amortization endpoint and its `record_payment`;
* `src/backend/routes/loans.py` — the refactored router's
  `record_payment`, calculator endpoints and `setup_loan` tenure logic.

Modelling conventions:

* Monetary amounts and rates are rationals (`ℚ`); the Python source uses
  IEEE floats, but every concrete value evaluated in this file is far
  from a rounding boundary, so the rational and float results agree at
  the displayed two decimals.
* `round2` models Python's `round(x, 2)` as round-half-up on `ℚ`;
  CPython rounds half to even on the underlying float, and no value
  evaluated here sits on a half-cent boundary.
* Instants (`datetime.utcnow()`, `next_payment_due`) are seconds on an
  integer timeline; `timedelta.days` is floor division by 86400
  (`Int.fdiv`), exactly as Python normalises negative timedeltas.
* Calendar dates are a year/month/day structure with the Gregorian
  rules; month arithmetic (`relativedelta(months=k)`) clamps the day of
  month, and date comparison is field-lexicographic, exactly as
  `datetime.date` behaves.
-/

/-- Python's `round(x, 2)`: round to two decimal places (modelled as
round-half-up; CPython rounds half to even on the underlying float, and
no value evaluated in this file sits on a half-cent boundary). -/
def round2 (x : ℚ) : ℚ := ((⌊x * 100 + 1 / 2⌋ : ℤ) : ℚ) / 100

/-- Result record returned by the EMI calculators in
`src/backend/utils/calculations.py` (the returned dict). -/
structure EmiResult where
  method : String
  monthly_emi : ℚ
  total_amount : ℚ
  total_interest : ℚ
  principal : ℚ
deriving Repr, DecidableEq

/-- `calculate_simple_interest_emi` from `utils/calculations.py`. -/
def calculate_simple_interest_emi (principal annual_rate : ℚ) (months : ℕ) : EmiResult :=
  let years : ℚ := (months : ℚ) / 12
  let interest := (principal * annual_rate * years) / 100
  let total_amount := principal + interest
  let monthly_emi := total_amount / (months : ℚ)
  { method := "Simple Interest"
    monthly_emi := round2 monthly_emi
    total_amount := round2 total_amount
    total_interest := round2 interest
    principal := round2 principal }

/-- `calculate_reducing_balance_emi` from `utils/calculations.py`. -/
def calculate_reducing_balance_emi (principal annual_rate : ℚ) (months : ℕ) : EmiResult :=
  let monthly_rate := annual_rate / 12 / 100
  let pair : ℚ × ℚ :=
    if monthly_rate = 0 then
      (principal / (months : ℚ), 0)
    else
      let power := (1 + monthly_rate) ^ months
      let emi := (principal * monthly_rate * power) / (power - 1)
      (emi, emi * (months : ℚ) - principal)
  let total_amount := principal + pair.2
  { method := "Reducing Balance"
    monthly_emi := round2 pair.1
    total_amount := round2 total_amount
    total_interest := round2 pair.2
    principal := round2 principal }

/-- `calculate_flat_rate_emi` from `utils/calculations.py`. -/
def calculate_flat_rate_emi (principal annual_rate : ℚ) (months : ℕ) : EmiResult :=
  let years : ℚ := (months : ℚ) / 12
  let total_interest := (principal * annual_rate * years) / 100
  let total_amount := principal + total_interest
  let monthly_emi := total_amount / (months : ℚ)
  { method := "Flat Rate"
    monthly_emi := round2 monthly_emi
    total_amount := round2 total_amount
    total_interest := round2 total_interest
    principal := round2 principal }

/-- `calculate_all_methods` from `utils/calculations.py`. -/
def calculate_all_methods (principal annual_rate : ℚ) (months : ℕ) :
    EmiResult × EmiResult × EmiResult :=
  (calculate_simple_interest_emi principal annual_rate months,
   calculate_reducing_balance_emi principal annual_rate months,
   calculate_flat_rate_emi principal annual_rate months)

/-- `calculate_late_fee` from `utils/calculations.py` (the copy in
`server.py` is textually identical): zero for non-positive
`days_overdue`, otherwise `(principal_due * late_fee_percent *
(days_overdue/30)) / 100` rounded to two decimals. -/
def calculate_late_fee (principal_due late_fee_percent : ℚ) (days_overdue : ℤ) : ℚ :=
  if days_overdue ≤ 0 then 0
  else
    let months_overdue : ℚ := (days_overdue : ℚ) / 30
    round2 ((principal_due * late_fee_percent * months_overdue) / 100)

example : (calculate_reducing_balance_emi 1000 12 6).monthly_emi = 17255 / 100 := by
  norm_num [calculate_reducing_balance_emi, round2]
example : (calculate_reducing_balance_emi 1000 12 6).total_amount = 103529 / 100 := by
  norm_num [calculate_reducing_balance_emi, round2]

/-! ## Calendar dates

`datetime.date` values and the `dateutil.relativedelta` month
arithmetic used by `setup_loan` and `record_payment`.  `datetime.date`
compares field-lexicographically; `date.toordinal()` is embedded by the
CPython `_ymd2ord` formula (days-before-year plus days-before-month
plus day). -/

/-- A Gregorian calendar date (`datetime.date`). -/
structure Date where
  year : ℤ
  month : ℤ
  day : ℤ
deriving Repr, DecidableEq

/-- Python's leap-year rule (`calendar.isleap`). -/
def isLeap (y : ℤ) : Bool := y % 4 == 0 && (y % 100 != 0 || y % 400 == 0)

/-- Length of a month (`calendar.monthrange`). -/
def daysInMonth (y m : ℤ) : ℤ :=
  if m = 2 then (if isLeap y then 29 else 28)
  else if m = 4 ∨ m = 6 ∨ m = 9 ∨ m = 11 then 30
  else 31

/-- CPython `_DAYS_BEFORE_MONTH` cumulative table (non-leap). -/
def daysBeforeMonthTable (m : ℤ) : ℤ :=
  if m ≤ 1 then 0 else if m = 2 then 31 else if m = 3 then 59
  else if m = 4 then 90 else if m = 5 then 120 else if m = 6 then 151
  else if m = 7 then 181 else if m = 8 then 212 else if m = 9 then 243
  else if m = 10 then 273 else if m = 11 then 304 else 334

/-- CPython `_days_before_month`. -/
def daysBeforeMonth (y m : ℤ) : ℤ :=
  daysBeforeMonthTable m + (if 2 < m ∧ isLeap y then 1 else 0)

/-- CPython `_days_before_year` (valid for `year ≥ 1`, which
`datetime.MINYEAR` guarantees; `/` is floor division there). -/
def daysBeforeYear (y : ℤ) : ℤ :=
  365 * (y - 1) + (y - 1) / 4 - (y - 1) / 100 + (y - 1) / 400

/-- CPython `date.toordinal` (`_ymd2ord`). -/
def toOrdinal (d : Date) : ℤ :=
  daysBeforeYear d.year + daysBeforeMonth d.year d.month + d.day

/-- A structurally valid `datetime.date`. -/
def Date.Valid (d : Date) : Prop :=
  1 ≤ d.year ∧ 1 ≤ d.month ∧ d.month ≤ 12 ∧ 1 ≤ d.day ∧ d.day ≤ daysInMonth d.year d.month

instance (d : Date) : Decidable d.Valid := by
  unfold Date.Valid
  infer_instance

/-- `datetime.date` comparison (field-lexicographic). -/
def dateLe (a b : Date) : Prop :=
  a.year < b.year ∨ (a.year = b.year ∧
    (a.month < b.month ∨ (a.month = b.month ∧ a.day ≤ b.day)))

/-- Strict `datetime.date` comparison (field-lexicographic). -/
def dateLt (a b : Date) : Prop :=
  a.year < b.year ∨ (a.year = b.year ∧
    (a.month < b.month ∨ (a.month = b.month ∧ a.day < b.day)))

instance (a b : Date) : Decidable (dateLe a b) := by
  unfold dateLe
  infer_instance

instance (a b : Date) : Decidable (dateLt a b) := by
  unfold dateLt
  infer_instance

/-- `d + relativedelta(months=k)`: shift by whole months, clamping the
day of month to the target month's length, as `dateutil` does. -/
def addMonths (d : Date) (k : ℤ) : Date :=
  let t := 12 * d.year + (d.month - 1) + k
  let y := t / 12
  let m := t % 12 + 1
  ⟨y, m, min d.day (daysInMonth y m)⟩

example : addMonths ⟨2024, 1, 31⟩ 1 = ⟨2024, 2, 29⟩ := by decide
example : addMonths ⟨2024, 12, 15⟩ 1 = ⟨2025, 1, 15⟩ := by decide

/-! ## Payment processing

Two implementations of `record_payment` exist in the repository: the
refactored router (`src/backend/routes/loans.py`, lines 239-307) and the
legacy endpoint (`src/backend/server.py`, lines 1691-1754).  Both are
embedded.  Database reads/writes become a pure state transformer on the
client record; `client.get(field, 0)` defaults are the record fields
themselves. -/

/-- The per-client loan record fields touched by payment recording. -/
structure LoanClient where
  total_paid : ℚ
  outstanding_balance : ℚ
  total_amount_due : ℚ
  next_payment_due : Option Date
  last_payment_date : Option Date
  days_overdue : ℤ
  is_locked : Bool
  lock_message : String
deriving Repr, DecidableEq

/-- `record_payment` from `src/backend/routes/loans.py`: subtracts the
amount from `outstanding_balance` (clamped at 0), always advances a set
`next_payment_due` by one month, and unlocks when the new balance is
`≤ 0`. -/
def record_payment_routes (c : LoanClient) (amount : ℚ) (payment_date : Date) : LoanClient :=
  let new_total_paid := c.total_paid + amount
  let new_outstanding := max 0 (c.outstanding_balance - amount)
  let next_due := c.next_payment_due.map (fun d => addMonths d 1)
  let c1 := { c with
    total_paid := new_total_paid
    outstanding_balance := new_outstanding
    last_payment_date := some payment_date
    next_payment_due := next_due
    days_overdue := 0 }
  if new_outstanding ≤ 0 then { c1 with is_locked := false } else c1

/-- `record_payment` from `src/backend/server.py`: recomputes the
balance as `total_amount_due - total_paid`, clears `next_payment_due`
when the (pre-clamp) balance is not positive, else advances it by one
month (`client.get("next_payment_due", utcnow)` supplies `now` when the
field is absent), and unlocks with a fixed message at payoff. -/
def record_payment_server (now : Date) (c : LoanClient) (amount : ℚ) (payment_date : Date) :
    LoanClient :=
  let total_paid := c.total_paid + amount
  let outstanding := c.total_amount_due - total_paid
  let current_next_due := c.next_payment_due.getD now
  let next_payment_due :=
    if 0 < outstanding then some (addMonths current_next_due 1) else none
  let c1 := { c with
    total_paid := total_paid
    outstanding_balance := max 0 outstanding
    last_payment_date := some payment_date
    next_payment_due := next_payment_due
    days_overdue := 0 }
  if outstanding ≤ 0 then
    { c1 with is_locked := false, lock_message := "Loan fully paid. Device unlocked." }
  else c1

/-! ## Penalty accrual sweep

`apply_late_fees_to_overdue_clients` (`src/backend/server.py`, lines
399-443) iterates the accounts matched by the query
`next_payment_due < now ∧ outstanding_balance > 0`; the per-account body
is embedded as a state transformer.  Instants are seconds on an integer
timeline and `timedelta.days` is floor division by 86400. -/

/-- The per-client fields read and written by the penalty sweep. -/
structure SweepClient where
  next_payment_due : ℤ
  outstanding_balance : ℚ
  monthly_emi : ℚ
  late_fees_accumulated : ℚ
  days_overdue : ℤ
deriving Repr, DecidableEq

/-- Late-fee rate resolution (`server.py` lines 416-422): the outer
`Option` is whether the client has a `loan_plan_id` that resolves to a
plan, the inner one the plan's `late_fee_percent` field; every missing
layer falls back to the default 2%/month. -/
def resolveLateFeeRate (plan : Option (Option ℚ)) : ℚ :=
  match plan with
  | none => 2
  | some p => p.getD 2

/-- One iteration of `apply_late_fees_to_overdue_clients` on a client
matched by the query filter (clients not matched are untouched). -/
def apply_late_fees_client (now : ℤ) (plan : Option (Option ℚ)) (c : SweepClient) :
    SweepClient :=
  if c.next_payment_due < now ∧ 0 < c.outstanding_balance then
    let days_overdue := Int.fdiv (now - c.next_payment_due) 86400
    if 0 < days_overdue then
      let late_fee := calculate_late_fee c.monthly_emi (resolveLateFeeRate plan) days_overdue
      { c with
        late_fees_accumulated := c.late_fees_accumulated + late_fee
        days_overdue := days_overdue }
    else c
  else c

/-! ## Auto-lock sweep

`check_and_auto_lock_overdue_payments` (`src/backend/server.py`, lines
540-583): iterates clients with `auto_lock_enabled`, skips those without
a `next_payment_due`, locks past the grace period, otherwise refreshes
the overdue counter. -/

/-- The per-client fields read and written by the auto-lock sweep. -/
structure LockClient where
  auto_lock_enabled : Bool
  next_payment_due : Option ℤ
  auto_lock_grace_days : Option ℤ
  is_locked : Bool
  lock_message : String
  days_overdue : ℤ
deriving Repr, DecidableEq

/-- The generated overdue lock message (`server.py` line 566). -/
def overdueLockMessage (days : ℤ) : String :=
  "Device locked: Payment overdue by " ++ toString days ++ " days. Please contact admin."

/-- One iteration of the auto-lock job on a single client.  Clients with
`auto_lock_enabled` false are not matched by the query and stay
untouched; `client.get("auto_lock_grace_days", 3)` is the `getD 3`. -/
def auto_lock_client (now : ℤ) (c : LockClient) : LockClient :=
  if c.auto_lock_enabled then
    match c.next_payment_due with
    | none => c
    | some next_due =>
      let grace_days := c.auto_lock_grace_days.getD 3
      let days_overdue := Int.fdiv (now - next_due) 86400
      if grace_days < days_overdue ∧ c.is_locked = false then
        { c with
          is_locked := true
          lock_message := overdueLockMessage days_overdue
          days_overdue := days_overdue }
      else
        { c with days_overdue := max 0 days_overdue }
  else c

/-! ## Reminder sweep

`create_payment_reminders` (`src/backend/server.py`, lines 469-538):
iterates clients matched by `outstanding_balance > 0 ∧
payment_reminders_enabled ∧ next_payment_due exists`; for the single
threshold matching `days_until_due` it creates a reminder unless one of
the same `(client, type)` was scheduled within the prior 24 hours.  The
reminder's message text and the push notification are transport
concerns not touched by the claims and are not part of the reminder's
identity `(client_id, reminder_type, scheduled_date)` modelled here. -/

/-- A stored reminder record (identity fields). -/
structure Reminder where
  client_id : String
  reminder_type : String
  scheduled_date : ℤ
deriving Repr, DecidableEq

/-- The per-client fields read by the reminder sweep. -/
structure ReminderClient where
  id : String
  outstanding_balance : ℚ
  payment_reminders_enabled : Bool
  next_payment_due : ℤ
deriving Repr, DecidableEq

/-- The `reminder_configs` list (`server.py` lines 489-494). -/
def reminderConfigs : List (ℤ × String) :=
  [(0, "payment_due_today"), (-1, "payment_overdue_1day"),
   (-3, "payment_overdue_3days"), (-7, "payment_overdue_7days")]

/-- The existing-reminder lookup (`server.py` lines 499-503): same
client, same type, `scheduled_date ≥ now - relativedelta(days=1)`. -/
def hasRecentReminder (now : ℤ) (rems : List Reminder) (cid ty : String) : Bool :=
  rems.any (fun r =>
    r.client_id == cid && r.reminder_type == ty && decide (now - 86400 ≤ r.scheduled_date))

/-- One iteration of `create_payment_reminders` on a single client,
returning the reminders it creates (none for unmatched clients).  At
most one config matches `days_until_due`, so checking duplicates against
the pre-existing list only is exactly what the loop does. -/
def create_payment_reminders_client (now : ℤ) (c : ReminderClient) (rems : List Reminder) :
    List Reminder :=
  if 0 < c.outstanding_balance ∧ c.payment_reminders_enabled then
    let days_until_due := Int.fdiv (c.next_payment_due - now) 86400
    reminderConfigs.filterMap (fun cfg =>
      if days_until_due = cfg.1 ∧ ¬ hasRecentReminder now rems c.id cfg.2 then
        some ⟨c.id, cfg.2, now⟩
      else none)
  else []

/-! ## Amortization schedules

`calculate_amortization_schedule` (`src/backend/server.py`, lines
1590-1643) and `generate_amortization_schedule`
(`src/backend/routes/loans.py`, lines 120-160).  The loop state is the
running balance; `balAfter` is that state after `k` iterations, so the
schedule row for month `i+1` is a function of `balAfter i`. -/

/-- One row of an amortization schedule. -/
structure AmortEntry where
  month : ℕ
  emi : ℚ
  principal : ℚ
  interest : ℚ
  balance : ℚ
deriving Repr, DecidableEq

/-- The per-month interest of the `server.py` schedule: reducing balance
charges `balance * monthly_rate`, the other two methods spread the
(rounded) total interest evenly. -/
def amortInterest (method : String) (monthly_rate total_interest : ℚ) (months : ℕ) (bal : ℚ) :
    ℚ :=
  if method = "reducing_balance" then bal * monthly_rate else total_interest / (months : ℚ)

/-- Running balance after `k` months of the `server.py` loop
(`remaining_principal -= principal_payment`, no clamping in the state). -/
def balAfter (interestOf : ℚ → ℚ) (emi principal : ℚ) : ℕ → ℚ
  | 0 => principal
  | k + 1 =>
    balAfter interestOf emi principal k -
      (emi - interestOf (balAfter interestOf emi principal k))

/-- EMI summary selection of the `server.py` endpoint (lines 1602-1607). -/
def amortEmiData (principal annual_rate : ℚ) (months : ℕ) (method : String) : EmiResult :=
  if method = "reducing_balance" then calculate_reducing_balance_emi principal annual_rate months
  else if method = "simple_interest" then calculate_simple_interest_emi principal annual_rate months
  else calculate_flat_rate_emi principal annual_rate months

/-- The schedule built by `calculate_amortization_schedule` in
`server.py` (displayed balance clamps and rounds, the running state does
not). -/
def calculate_amortization_schedule_server (principal annual_rate : ℚ) (months : ℕ)
    (method : String) : List AmortEntry :=
  let emi_data := amortEmiData principal annual_rate months method
  let monthly_emi := emi_data.monthly_emi
  let monthly_rate := annual_rate / 12 / 100
  let iOf := amortInterest method monthly_rate emi_data.total_interest months
  (List.range months).map (fun i =>
    let prev := balAfter iOf monthly_emi principal i
    let interest := iOf prev
    { month := i + 1
      emi := round2 monthly_emi
      principal := round2 (monthly_emi - interest)
      interest := round2 interest
      balance := round2 (max 0 (balAfter iOf monthly_emi principal (i + 1))) })

/-- Running balance of the `routes/loans.py` schedule loop, which clamps
the running state at 0 each month (`balance = max(0, balance -
principal_payment)`) and always charges reducing-style interest. -/
def balAfterClamped (monthly_rate emi principal : ℚ) : ℕ → ℚ
  | 0 => principal
  | k + 1 =>
    max 0 (balAfterClamped monthly_rate emi principal k -
      (emi - balAfterClamped monthly_rate emi principal k * monthly_rate))

/-- EMI summary selection of the routes endpoint (lines 131-136). -/
def amortEmiDataRoutes (principal annual_rate : ℚ) (months : ℕ) (method : String) : EmiResult :=
  if method = "simple_interest" then calculate_simple_interest_emi principal annual_rate months
  else if method = "flat_rate" then calculate_flat_rate_emi principal annual_rate months
  else calculate_reducing_balance_emi principal annual_rate months

/-- The schedule built by `generate_amortization_schedule` in
`routes/loans.py` (lines 138-155). -/
def generate_amortization_schedule_routes_core (principal annual_rate : ℚ) (months : ℕ)
    (method : String) : List AmortEntry :=
  let emi_data := amortEmiDataRoutes principal annual_rate months method
  let monthly_emi := emi_data.monthly_emi
  let monthly_rate := annual_rate / 12 / 100
  (List.range months).map (fun i =>
    let prev := balAfterClamped monthly_rate monthly_emi principal i
    let interest := prev * monthly_rate
    { month := i + 1
      emi := round2 monthly_emi
      principal := round2 (monthly_emi - interest)
      interest := round2 interest
      balance := round2 (balAfterClamped monthly_rate monthly_emi principal (i + 1)) })

/-! ## Endpoint validation (calculator endpoints)

The guards that run before any schedule or comparison is computed.
Tenure is an `int` query parameter, so it is modelled as `ℤ` here; the
calculators are only reached with a positive value. -/

/-- Discriminates the two `Except` outcomes. -/
def exceptIsOk {ε α : Type} : Except ε α → Bool
  | .ok _ => true
  | .error _ => false

/-- `compare_emi_methods` endpoint of `routes/loans.py` (lines 107-117):
one combined guard. -/
def compare_emi_methods_routes (principal annual_rate : ℚ) (months : ℤ) :
    Except String (EmiResult × EmiResult × EmiResult) :=
  if principal ≤ 0 ∨ annual_rate < 0 ∨ months ≤ 0 then .error "Invalid input values"
  else .ok (calculate_all_methods principal annual_rate months.toNat)

/-- `compare_emi_methods` endpoint of `server.py` (lines 1563-1588): two
guards in sequence.  The savings/cheapest decoration it adds to the
result is presentation only and not modelled. -/
def compare_emi_methods_server (principal annual_rate : ℚ) (months : ℤ) :
    Except String (EmiResult × EmiResult × EmiResult) :=
  if principal ≤ 0 ∨ months ≤ 0 then .error "Principal and months must be positive"
  else if annual_rate < 0 then .error "Interest rate cannot be negative"
  else .ok (calculate_all_methods principal annual_rate months.toNat)

/-- `generate_amortization_schedule` endpoint of `routes/loans.py`
(lines 120-129): rejects non-positive principal or months and negative
rates. -/
def generate_amortization_schedule_routes (principal annual_rate : ℚ) (months : ℤ)
    (method : String) : Except String (List AmortEntry) :=
  if principal ≤ 0 ∨ annual_rate < 0 ∨ months ≤ 0 then .error "Invalid input values"
  else .ok (generate_amortization_schedule_routes_core principal annual_rate months.toNat method)

/-- `calculate_amortization_schedule` endpoint of `server.py` (lines
1590-1599): its guard checks only principal and months — a negative
`annual_rate` is accepted. -/
def calculate_amortization_endpoint_server (principal annual_rate : ℚ) (months : ℤ)
    (method : String) : Except String (List AmortEntry) :=
  if principal ≤ 0 ∨ months ≤ 0 then .error "Principal and months must be positive"
  else .ok (calculate_amortization_schedule_server principal annual_rate months.toNat method)

/-! ## Tenure resolution

`setup_loan` (`src/backend/routes/loans.py`, lines 176-195).  When a due
date is supplied, `relativedelta(due, start)` splits the gap into whole
months plus leftover days; `dateutil` anchors `start + months` in the
due date's own month and decrements while that anchor exceeds the due
date — with both anchors in the due date's month the loop body runs at
most once, which is the `if` below.  The code runs at
`datetime.utcnow()`; the model works at date granularity, midnight
anchors, which is the granularity of the claim and of the parsed due
date. -/

/-- Raw signed month difference used as dateutil's starting guess. -/
def rawMonthsBetween (start due : Date) : ℤ :=
  12 * (due.year - start.year) + (due.month - start.month)

/-- `relativedelta(due, start)`'s normalised `years*12 + months`. -/
def rdMonths (start due : Date) : ℤ :=
  let m0 := rawMonthsBetween start due
  if dateLe (addMonths start m0) due then m0 else m0 - 1

/-- `relativedelta(due, start).days`: the leftover whole days past the
month anchor, an ordinal difference. -/
def rdDays (start due : Date) : ℤ :=
  toOrdinal due - toOrdinal (addMonths start (rdMonths start due))

/-- The tenure computation of `setup_loan` (lines 185-190): whole months,
plus one when leftover days are positive, clamped to at least 1. -/
def resolve_tenure_months (start due : Date) : ℤ :=
  let tenure := rdMonths start due + (if 0 < rdDays start due then 1 else 0)
  if tenure < 1 then 1 else tenure

example : resolve_tenure_months ⟨2024, 1, 1⟩ ⟨2024, 6, 15⟩ = 6 := by decide
example : resolve_tenure_months ⟨2024, 1, 1⟩ ⟨2024, 6, 1⟩ = 5 := by decide

/-- The pre-rounding reducing-balance installment (the `monthly_emi`
local of `calculate_reducing_balance_emi` before `round(…, 2)`), in
terms of the monthly rate `R = annual_rate/12/100`. -/
def exactReducingEmi (p R : ℚ) (m : ℕ) : ℚ :=
  if R = 0 then p / (m : ℚ) else p * R * (1 + R) ^ m / ((1 + R) ^ m - 1)

/-! ## Helper lemmas -/

theorem round2_zero : round2 0 = 0 := by norm_num [round2]

theorem ite_lt_one_eq_max (t : ℤ) : (if t < 1 then 1 else t) = max 1 t := by
  rcases le_or_lt 1 t with h | h
  · rw [if_neg (by omega), max_eq_right h]
  · rw [if_pos h, max_eq_left (by omega)]

/-! ## Claims about payments and late fees -/

/-- Claim C10: `calculate_late_fee` returns exactly 0 whenever
`days_overdue ≤ 0`, for every principal and rate, so an account whose
due date has not passed can never accrue a fee through it. -/
theorem c10_late_fee_zero_for_nonpositive_days (principal_due late_fee_percent : ℚ)
    (days_overdue : ℤ) (h : days_overdue ≤ 0) :
    calculate_late_fee principal_due late_fee_percent days_overdue = 0 := by
  simp [calculate_late_fee, h]

theorem c10_late_fee_zero_for_nonpositive_days_witness :
    (-2 : ℤ) ≤ 0 ∧ calculate_late_fee 500 3 (-2) = 0 :=
  ⟨by decide, c10_late_fee_zero_for_nonpositive_days 500 3 (-2) (by decide)⟩

/-- Claim C1: recording a positive payment at least as large as a
positive outstanding balance drives `outstanding_balance` to exactly 0
(never negative), adds exactly the amount to `total_paid`, and forces
`is_locked` false — in both `record_payment` implementations.  The
`server.py` implementation recomputes the balance from
`total_amount_due - total_paid`, so the data model's accounting
invariant `total_paid + outstanding_balance = total_amount_due` is
assumed for it. -/
theorem c1_record_payment_overpayment (c : LoanClient) (amount : ℚ) (payment_date now : Date)
    (hpos : 0 < amount) (hbal : 0 < c.outstanding_balance)
    (hover : c.outstanding_balance ≤ amount)
    (hinv : c.total_paid + c.outstanding_balance = c.total_amount_due) :
    (record_payment_routes c amount payment_date).outstanding_balance = 0 ∧
    (record_payment_routes c amount payment_date).total_paid = c.total_paid + amount ∧
    (record_payment_routes c amount payment_date).is_locked = false ∧
    (record_payment_server now c amount payment_date).outstanding_balance = 0 ∧
    (record_payment_server now c amount payment_date).total_paid = c.total_paid + amount ∧
    (record_payment_server now c amount payment_date).is_locked = false := by
  have h1 : max (0 : ℚ) (c.outstanding_balance - amount) = 0 :=
    max_eq_left (by linarith)
  have h2 : max (0 : ℚ) (c.total_amount_due - (c.total_paid + amount)) = 0 :=
    max_eq_left (by linarith)
  have h3 : c.total_amount_due - (c.total_paid + amount) ≤ 0 := by linarith
  refine ⟨?_, ?_, ?_, ?_, ?_, ?_⟩ <;>
    simp [record_payment_routes, record_payment_server, h1, h2, h3]

theorem c1_record_payment_overpayment_witness :
    (0 : ℚ) < 80 ∧ (0 : ℚ) < 50 ∧ (50 : ℚ) ≤ 80 ∧ (20 : ℚ) + 50 = 70 ∧
    ((record_payment_routes ⟨20, 50, 70, none, none, 4, true, "x"⟩ 80
        ⟨2024, 6, 1⟩).outstanding_balance = 0 ∧
      (record_payment_routes ⟨20, 50, 70, none, none, 4, true, "x"⟩ 80
        ⟨2024, 6, 1⟩).total_paid = (20 : ℚ) + 80 ∧
      (record_payment_routes ⟨20, 50, 70, none, none, 4, true, "x"⟩ 80
        ⟨2024, 6, 1⟩).is_locked = false ∧
      (record_payment_server ⟨2024, 6, 1⟩ ⟨20, 50, 70, none, none, 4, true, "x"⟩ 80
        ⟨2024, 6, 1⟩).outstanding_balance = 0 ∧
      (record_payment_server ⟨2024, 6, 1⟩ ⟨20, 50, 70, none, none, 4, true, "x"⟩ 80
        ⟨2024, 6, 1⟩).total_paid = (20 : ℚ) + 80 ∧
      (record_payment_server ⟨2024, 6, 1⟩ ⟨20, 50, 70, none, none, 4, true, "x"⟩ 80
        ⟨2024, 6, 1⟩).is_locked = false) :=
  ⟨by norm_num, by norm_num, by norm_num, by norm_num,
    c1_record_payment_overpayment ⟨20, 50, 70, none, none, 4, true, "x"⟩ 80 ⟨2024, 6, 1⟩
      ⟨2024, 6, 1⟩ (by norm_num) (by norm_num) (by norm_num) (by norm_num)⟩

/-- Claim C2, counterexample: in the `routes/loans.py` implementation a
payment that clears the balance does NOT clear `next_payment_due` — the
due date is advanced by one month instead of being removed, refuting
"if the resulting balance is 0, next_payment_due is cleared". -/
theorem c2_counterexample :
    (record_payment_routes ⟨50, 50, 100, some ⟨2024, 5, 1⟩, none, 0, false, ""⟩ 80
      ⟨2024, 5, 2⟩).outstanding_balance = 0 ∧
    (record_payment_routes ⟨50, 50, 100, some ⟨2024, 5, 1⟩, none, 0, false, ""⟩ 80
      ⟨2024, 5, 2⟩).next_payment_due = some ⟨2024, 6, 1⟩ := by
  constructor <;>
    norm_num [record_payment_routes, addMonths, daysInMonth, isLeap]

/-- Claim C2, amended: after a payment on an account with a due date
set, the `server.py` implementation advances `next_payment_due` by one
calendar month when the resulting balance stays positive and clears it
when the balance reaches 0; the `routes/loans.py` implementation always
advances it by one calendar month and never clears it. -/
theorem c2_next_due_behavior (c : LoanClient) (amount : ℚ) (payment_date now d : Date)
    (hnd : c.next_payment_due = some d)
    (hinv : c.total_paid + c.outstanding_balance = c.total_amount_due) :
    (record_payment_routes c amount payment_date).next_payment_due =
      some (addMonths d 1) ∧
    (0 < c.outstanding_balance - amount →
      (record_payment_server now c amount payment_date).next_payment_due =
        some (addMonths d 1)) ∧
    (c.outstanding_balance - amount ≤ 0 →
      (record_payment_server now c amount payment_date).next_payment_due = none) := by
  have hb : c.total_amount_due - (c.total_paid + amount) = c.outstanding_balance - amount := by
    linarith
  refine ⟨?_, fun h => ?_, fun h => ?_⟩
  · simp [record_payment_routes, hnd]
    split <;> simp
  · simp [record_payment_server, hnd, hb]
    split <;> simp_all
  · simp [record_payment_server, hnd, hb]
    split <;> simp_all

theorem c2_next_due_behavior_witness :
    ((⟨50, 50, 100, some ⟨2024, 5, 1⟩, none, 0, false, ""⟩ : LoanClient).next_payment_due =
      some ⟨2024, 5, 1⟩) ∧ (50 : ℚ) + 50 = 100 ∧
    ((record_payment_routes ⟨50, 50, 100, some ⟨2024, 5, 1⟩, none, 0, false, ""⟩ 30
        ⟨2024, 5, 2⟩).next_payment_due = some (addMonths ⟨2024, 5, 1⟩ 1) ∧
      (0 < (50 : ℚ) - 30 →
        (record_payment_server ⟨2024, 5, 2⟩
          ⟨50, 50, 100, some ⟨2024, 5, 1⟩, none, 0, false, ""⟩ 30
          ⟨2024, 5, 2⟩).next_payment_due = some (addMonths ⟨2024, 5, 1⟩ 1)) ∧
      ((50 : ℚ) - 30 ≤ 0 →
        (record_payment_server ⟨2024, 5, 2⟩
          ⟨50, 50, 100, some ⟨2024, 5, 1⟩, none, 0, false, ""⟩ 30
          ⟨2024, 5, 2⟩).next_payment_due = none)) :=
  ⟨rfl, by norm_num,
    c2_next_due_behavior ⟨50, 50, 100, some ⟨2024, 5, 1⟩, none, 0, false, ""⟩ 30
      ⟨2024, 5, 2⟩ ⟨2024, 5, 2⟩ ⟨2024, 5, 1⟩ rfl (by norm_num)⟩

/-- Claim C3, counterexample: an account whose `next_payment_due` lies
in the past by less than one full day (one hour here) and whose balance
is positive is matched by the sweep's query, yet the sweep leaves the
record entirely unchanged — in particular the stored `days_overdue`
(7 here) is NOT overwritten with the freshly computed value (0). -/
theorem c3_counterexample :
    (⟨-3600, 10, 100, 5, 7⟩ : SweepClient).next_payment_due < 0 ∧
    (0 : ℚ) < (⟨-3600, 10, 100, 5, 7⟩ : SweepClient).outstanding_balance ∧
    Int.fdiv (0 - (⟨-3600, 10, 100, 5, 7⟩ : SweepClient).next_payment_due) 86400 = 0 ∧
    apply_late_fees_client 0 none ⟨-3600, 10, 100, 5, 7⟩ = ⟨-3600, 10, 100, 5, 7⟩ ∧
    ¬ (apply_late_fees_client 0 none ⟨-3600, 10, 100, 5, 7⟩).days_overdue =
        Int.fdiv (0 - (⟨-3600, 10, 100, 5, 7⟩ : SweepClient).next_payment_due) 86400 := by
  have h0 : Int.fdiv (3600 : ℤ) 86400 = 0 := by decide
  refine ⟨by decide, by norm_num, by decide, ?_, ?_⟩ <;>
    norm_num [apply_late_fees_client, h0]

/-- Claim C3, amended: for every account whose `next_payment_due` is at
least one full day in the past (freshly computed `days_overdue ≥ 1`) and
whose balance is positive, one sweep iteration adds
`round2(monthly_installment * rate * (days_overdue/30) / 100)` to
`late_fees_accumulated` — the rate resolved from the account's loan
plan, defaulting to 2%/month at every missing layer — and overwrites the
stored `days_overdue` with the fresh value; an account overdue by less
than one full day is left entirely unchanged (its stored `days_overdue`
is not overwritten). -/
theorem c3_late_fee_sweep (now : ℤ) (plan : Option (Option ℚ)) (c : SweepClient)
    (hdue : c.next_payment_due < now) (hbal : 0 < c.outstanding_balance) :
    (1 ≤ Int.fdiv (now - c.next_payment_due) 86400 →
      apply_late_fees_client now plan c = { c with
        late_fees_accumulated := c.late_fees_accumulated +
          round2 (c.monthly_emi * resolveLateFeeRate plan *
            ((Int.fdiv (now - c.next_payment_due) 86400 : ℤ) / 30 : ℚ) / 100)
        days_overdue := Int.fdiv (now - c.next_payment_due) 86400 }) ∧
    (Int.fdiv (now - c.next_payment_due) 86400 ≤ 0 →
      apply_late_fees_client now plan c = c) ∧
    resolveLateFeeRate none = 2 ∧ resolveLateFeeRate (some none) = 2 ∧
    (∀ q : ℚ, resolveLateFeeRate (some (some q)) = q) := by
  refine ⟨fun h => ?_, fun h => ?_, rfl, rfl, fun q => rfl⟩
  · simp only [apply_late_fees_client, if_pos (And.intro hdue hbal)]
    rw [if_pos (by omega : 0 < Int.fdiv (now - c.next_payment_due) 86400)]
    simp [calculate_late_fee, show ¬ Int.fdiv (now - c.next_payment_due) 86400 ≤ 0 by omega]
  · simp only [apply_late_fees_client, if_pos (And.intro hdue hbal)]
    rw [if_neg (by omega : ¬ 0 < Int.fdiv (now - c.next_payment_due) 86400)]

theorem c3_late_fee_sweep_witness :
    ((⟨-259200, 10, 100, 5, 0⟩ : SweepClient).next_payment_due < 0 ∧
      (0 : ℚ) < (⟨-259200, 10, 100, 5, 0⟩ : SweepClient).outstanding_balance) ∧
    (1 ≤ Int.fdiv (0 - (⟨-259200, 10, 100, 5, 0⟩ : SweepClient).next_payment_due) 86400 →
      apply_late_fees_client 0 none ⟨-259200, 10, 100, 5, 0⟩ =
        { (⟨-259200, 10, 100, 5, 0⟩ : SweepClient) with
          late_fees_accumulated := (5 : ℚ) +
            round2 ((100 : ℚ) * resolveLateFeeRate none *
              ((Int.fdiv (0 - (-259200 : ℤ)) 86400 : ℤ) / 30 : ℚ) / 100)
          days_overdue := Int.fdiv (0 - (-259200 : ℤ)) 86400 }) :=
  ⟨⟨by decide, by norm_num⟩,
    (c3_late_fee_sweep 0 none ⟨-259200, 10, 100, 5, 0⟩ (by decide) (by norm_num)).1⟩

/-- Claim C4: one auto-lock iteration on an enabled account with a due
date never turns the lock on when the computed `days_overdue` is within
the grace period; it locks exactly the not-already-locked accounts
strictly past the grace period; and in every other case it changes only
the stored `days_overdue` counter. -/
theorem c4_auto_lock (now : ℤ) (c : LockClient) (next_due : ℤ)
    (hen : c.auto_lock_enabled = true) (hnd : c.next_payment_due = some next_due) :
    (Int.fdiv (now - next_due) 86400 ≤ c.auto_lock_grace_days.getD 3 →
      (auto_lock_client now c).is_locked = c.is_locked) ∧
    (c.auto_lock_grace_days.getD 3 < Int.fdiv (now - next_due) 86400 → c.is_locked = false →
      (auto_lock_client now c).is_locked = true) ∧
    (¬ (c.auto_lock_grace_days.getD 3 < Int.fdiv (now - next_due) 86400 ∧
        c.is_locked = false) →
      auto_lock_client now c =
        { c with days_overdue := max 0 (Int.fdiv (now - next_due) 86400) }) := by
  refine ⟨fun h => ?_, fun h h2 => ?_, fun h => ?_⟩ <;>
    · simp only [auto_lock_client, hen, if_pos, hnd]
      split <;> simp_all <;> omega

theorem c4_auto_lock_witness :
    (⟨true, some 0, some 3, false, "", 0⟩ : LockClient).auto_lock_enabled = true ∧
    (⟨true, some 0, some 3, false, "", 0⟩ : LockClient).next_payment_due = some 0 ∧
    Int.fdiv (259200 - 0) 86400 = 3 ∧ Int.fdiv (345600 - 0) 86400 = 4 ∧
    (auto_lock_client 259200 ⟨true, some 0, some 3, false, "", 0⟩).is_locked =
      (⟨true, some 0, some 3, false, "", 0⟩ : LockClient).is_locked ∧
    (auto_lock_client 345600 ⟨true, some 0, some 3, false, "", 0⟩).is_locked = true :=
  ⟨rfl, rfl, by decide, by decide,
    (c4_auto_lock 259200 ⟨true, some 0, some 3, false, "", 0⟩ 0 rfl rfl).1 (by decide),
    (c4_auto_lock 345600 ⟨true, some 0, some 3, false, "", 0⟩ 0 rfl rfl).2.1 (by decide) rfl⟩

/-- Claim C7, counterexample: at principal=1000, annual_rate=12,
months=6 the code returns `total_amount = 1035.29`, not the claimed
1035.30 (the exact pre-rounding total is 1035.2902…). -/
theorem c7_counterexample :
    (calculate_reducing_balance_emi 1000 12 6).total_amount = 103529 / 100 ∧
    (calculate_reducing_balance_emi 1000 12 6).total_amount ≠ 10353 / 10 := by
  constructor <;> norm_num [calculate_reducing_balance_emi, round2]

/-- Claim C7, amended: `calculate_reducing_balance_emi 1000 12 6`
returns `monthly_emi = 172.55` and `total_amount = 1035.29` (not
1035.30), each exact to the cent; and whenever the monthly rate is zero
it returns `monthly_emi = round2(principal/months)` with zero total
interest (`total_amount = round2 principal`). -/
theorem c7_reducing_balance_values (p : ℚ) (m : ℕ) (hp : 0 < p) (hm : 1 ≤ m) :
    (calculate_reducing_balance_emi 1000 12 6).monthly_emi = 17255 / 100 ∧
    (calculate_reducing_balance_emi 1000 12 6).total_amount = 103529 / 100 ∧
    (calculate_reducing_balance_emi p 0 m).monthly_emi = round2 (p / (m : ℚ)) ∧
    (calculate_reducing_balance_emi p 0 m).total_interest = 0 ∧
    (calculate_reducing_balance_emi p 0 m).total_amount = round2 p := by
  refine ⟨?_, ?_, ?_, ?_, ?_⟩
  · norm_num [calculate_reducing_balance_emi, round2]
  · norm_num [calculate_reducing_balance_emi, round2]
  · norm_num [calculate_reducing_balance_emi]
  · norm_num [calculate_reducing_balance_emi, round2_zero]
  · norm_num [calculate_reducing_balance_emi]

theorem c7_reducing_balance_values_witness :
    (0 : ℚ) < 600 ∧ 1 ≤ 5 ∧
    ((calculate_reducing_balance_emi 1000 12 6).monthly_emi = 17255 / 100 ∧
      (calculate_reducing_balance_emi 1000 12 6).total_amount = 103529 / 100 ∧
      (calculate_reducing_balance_emi 600 0 5).monthly_emi = round2 ((600 : ℚ) / (5 : ℕ)) ∧
      (calculate_reducing_balance_emi 600 0 5).total_interest = 0 ∧
      (calculate_reducing_balance_emi 600 0 5).total_amount = round2 600) :=
  ⟨by norm_num, by norm_num, c7_reducing_balance_values 600 5 (by norm_num) (by norm_num)⟩

/-- Claim C8, counterexample: the `server.py` amortization endpoint does
not validate the rate — a call with `annual_rate = -12` (and valid
principal and months) is accepted and produces a result instead of
being rejected as a validation failure. -/
theorem c8_counterexample :
    ((-12 : ℚ) < 0) ∧
    exceptIsOk (calculate_amortization_endpoint_server 1000 (-12) 6 "reducing_balance") =
      true := by
  constructor
  · norm_num
  · norm_num [calculate_amortization_endpoint_server, exceptIsOk]

/-- Claim C8, amended: both `compare` endpoints and the routes
amortization endpoint reject every call with `principal ≤ 0`,
`annual_rate < 0` or `months ≤ 0` as a validation error before any
result is computed; the `server.py` amortization endpoint rejects only
non-positive principal or months — a negative rate passes its guard. -/
theorem c8_validation (p r : ℚ) (m : ℤ) (meth : String)
    (hbad : p ≤ 0 ∨ r < 0 ∨ m ≤ 0) :
    exceptIsOk (compare_emi_methods_routes p r m) = false ∧
    exceptIsOk (compare_emi_methods_server p r m) = false ∧
    exceptIsOk (generate_amortization_schedule_routes p r m meth) = false ∧
    ((p ≤ 0 ∨ m ≤ 0) →
      exceptIsOk (calculate_amortization_endpoint_server p r m meth) = false) := by
  refine ⟨?_, ?_, ?_, fun h2 => ?_⟩
  · rw [compare_emi_methods_routes, if_pos hbad]; rfl
  · rw [compare_emi_methods_server]
    rcases hbad with h | h | h
    · rw [if_pos (Or.inl h)]; rfl
    · by_cases hpm : p ≤ 0 ∨ m ≤ 0
      · rw [if_pos hpm]; rfl
      · rw [if_neg hpm, if_pos h]; rfl
    · rw [if_pos (Or.inr h)]; rfl
  · rw [generate_amortization_schedule_routes, if_pos hbad]; rfl
  · rw [calculate_amortization_endpoint_server, if_pos h2]; rfl

theorem c8_validation_witness :
    ((1000 : ℚ) ≤ 0 ∨ (-3 : ℚ) < 0 ∨ (6 : ℤ) ≤ 0) ∧
    (exceptIsOk (compare_emi_methods_routes 1000 (-3) 6) = false ∧
      exceptIsOk (compare_emi_methods_server 1000 (-3) 6) = false ∧
      exceptIsOk (generate_amortization_schedule_routes 1000 (-3) 6 "flat_rate") = false ∧
      (((1000 : ℚ) ≤ 0 ∨ (6 : ℤ) ≤ 0) →
        exceptIsOk (calculate_amortization_endpoint_server 1000 (-3) 6 "flat_rate") =
          false)) :=
  ⟨Or.inr (Or.inl (by norm_num)),
    c8_validation 1000 (-3) 6 "flat_rate" (Or.inr (Or.inl (by norm_num)))⟩

/-! ## Reminder sweep lemmas -/

theorem hasRecentReminder_true_iff (now : ℤ) (rems : List Reminder) (cid ty : String) :
    hasRecentReminder now rems cid ty = true ↔
      ∃ r0 ∈ rems, r0.client_id = cid ∧ r0.reminder_type = ty ∧
        now - 86400 ≤ r0.scheduled_date := by
  simp [hasRecentReminder, List.any_eq_true, Bool.and_eq_true, beq_iff_eq,
    decide_eq_true_eq, and_assoc]

theorem mem_create_reminders_iff (now : ℤ) (c : ReminderClient) (rems : List Reminder)
    (r : Reminder) :
    r ∈ create_payment_reminders_client now c rems ↔
      (0 < c.outstanding_balance ∧ c.payment_reminders_enabled = true) ∧
      ∃ cfg ∈ reminderConfigs,
        Int.fdiv (c.next_payment_due - now) 86400 = cfg.1 ∧
        hasRecentReminder now rems c.id cfg.2 = false ∧
        r = ⟨c.id, cfg.2, now⟩ := by
  unfold create_payment_reminders_client
  split
  case isTrue h =>
    have hg : 0 < c.outstanding_balance ∧ c.payment_reminders_enabled = true := by
      simpa using h
    simp only [List.mem_filterMap, Option.ite_none_right_eq_some, Option.some.injEq]
    constructor
    · rintro ⟨cfg, hmem, ⟨h1, h2⟩, h3⟩
      exact ⟨hg, cfg, hmem, h1, by simpa using h2, h3.symm⟩
    · rintro ⟨-, cfg, hmem, h1, h2, h3⟩
      exact ⟨cfg, hmem, ⟨h1, by simp [h2]⟩, h3.symm⟩
  case isFalse h =>
    simp only [List.not_mem_nil, false_iff]
    rintro ⟨hg, -⟩
    exact h ⟨hg.1, by simp [hg.2]⟩

/-- Claim C5: the reminder sweep creates a reminder only when
`days_until_due` exactly equals one of {0, −1, −3, −7}; it creates at
most one reminder per run; it skips creation whenever a reminder of the
same (account, type) from the prior 24 hours exists; and a second run
within 24 hours (hence within the same hour) of a first run creates no
reminder of a type the first run already created — at most one reminder
per (account, type, calendar day). -/
theorem c5_reminder_sweep (now now2 : ℤ) (c : ReminderClient) (rems : List Reminder)
    (h1 : now ≤ now2) (h2 : now2 < now + 86400) :
    (∀ r ∈ create_payment_reminders_client now c rems,
      (Int.fdiv (c.next_payment_due - now) 86400 = 0 ∨
        Int.fdiv (c.next_payment_due - now) 86400 = -1 ∨
        Int.fdiv (c.next_payment_due - now) 86400 = -3 ∨
        Int.fdiv (c.next_payment_due - now) 86400 = -7) ∧
      r.client_id = c.id ∧ r.scheduled_date = now) ∧
    (create_payment_reminders_client now c rems).length ≤ 1 ∧
    (∀ ty : String,
      (∃ r0 ∈ rems, r0.client_id = c.id ∧ r0.reminder_type = ty ∧
        now - 86400 ≤ r0.scheduled_date) →
      ∀ r ∈ create_payment_reminders_client now c rems, r.reminder_type ≠ ty) ∧
    (∀ r2 ∈ create_payment_reminders_client now2 c
        (rems ++ create_payment_reminders_client now c rems),
      ∀ r1 ∈ create_payment_reminders_client now c rems,
        r2.reminder_type ≠ r1.reminder_type) := by
  refine ⟨?_, ?_, ?_, ?_⟩
  · intro r hr
    rw [mem_create_reminders_iff] at hr
    obtain ⟨-, cfg, hmem, hdays, -, hr⟩ := hr
    simp only [reminderConfigs, List.mem_cons, List.not_mem_nil, or_false] at hmem
    rcases hmem with h | h | h | h <;> subst h <;> subst hr <;>
      simp_all
  · unfold create_payment_reminders_client
    split
    case isTrue hg =>
      simp only [reminderConfigs, List.filterMap_cons, List.filterMap_nil]
      split_ifs <;> simp_all <;> omega
    case isFalse hg => simp
  · intro ty hex r hr
    rw [mem_create_reminders_iff] at hr
    obtain ⟨-, cfg, hmem, -, hrec, hr⟩ := hr
    subst hr
    intro hty
    simp only at hty
    subst hty
    rw [← hasRecentReminder_true_iff] at hex
    simp [hex] at hrec
  · intro r2 hr2 r1 hr1
    have hr1' := hr1
    rw [mem_create_reminders_iff] at hr1'
    obtain ⟨-, cfg1, hmem1, -, -, he1⟩ := hr1'
    rw [mem_create_reminders_iff] at hr2
    obtain ⟨-, cfg2, hmem2, -, hrec2, he2⟩ := hr2
    subst he1; subst he2
    intro hty
    simp only at hty
    have : hasRecentReminder now2 (rems ++ create_payment_reminders_client now c rems)
        c.id cfg2.2 = true := by
      rw [hasRecentReminder_true_iff]
      refine ⟨⟨c.id, cfg1.2, now⟩, List.mem_append_right _ hr1, rfl, hty.symm ▸ rfl, ?_⟩
      show now2 - 86400 ≤ now
      omega
    simp [this] at hrec2

theorem c5_reminder_sweep_witness :
    (0 : ℤ) ≤ 3600 ∧ (3600 : ℤ) < 0 + 86400 ∧
    create_payment_reminders_client 0 ⟨"c1", 100, true, -259200⟩ [] =
      [⟨"c1", "payment_overdue_3days", 0⟩] ∧
    create_payment_reminders_client 3600 ⟨"c1", 100, true, -259200⟩
      [⟨"c1", "payment_overdue_3days", 0⟩] = [] ∧
    (∀ r2 ∈ create_payment_reminders_client 3600 ⟨"c1", 100, true, -259200⟩
        ([] ++ create_payment_reminders_client 0 ⟨"c1", 100, true, -259200⟩ []),
      ∀ r1 ∈ create_payment_reminders_client 0 ⟨"c1", 100, true, -259200⟩ [],
        r2.reminder_type ≠ r1.reminder_type) := by
  have hd1 : Int.fdiv (-259200 : ℤ) 86400 = -3 := by decide
  have hd2 : Int.fdiv (-262800 : ℤ) 86400 = -4 := by decide
  refine ⟨by decide, by decide, ?_, ?_,
    (c5_reminder_sweep 0 3600 ⟨"c1", 100, true, -259200⟩ [] (by decide) (by decide)).2.2.2⟩
  · norm_num [create_payment_reminders_client, reminderConfigs, hasRecentReminder, hd1,
      List.filterMap_cons]
  · norm_num [create_payment_reminders_client, reminderConfigs, hasRecentReminder, hd2,
      List.filterMap_cons]

/-! ## Amortization lemmas -/

theorem balAfter_congr (f g : ℚ → ℚ) (h : ∀ b, f b = g b) (emi p : ℚ) (k : ℕ) :
    balAfter f emi p k = balAfter g emi p k := by
  induction k with
  | zero => rfl
  | succ n ih => simp [balAfter, ih, h]

theorem amortInterest_reducing (R ti : ℚ) (m : ℕ) (b : ℚ) :
    amortInterest "reducing_balance" R ti m b = b * R := by
  simp [amortInterest]

theorem balAfter_reducing_closed (R emi p : ℚ) (hR : R ≠ 0) (k : ℕ) :
    balAfter (fun b => b * R) emi p k = (1 + R) ^ k * p - emi * ((1 + R) ^ k - 1) / R := by
  induction k with
  | zero => simp [balAfter]
  | succ n ih =>
    simp only [balAfter, ih]
    field_simp
    ring

theorem balAfter_zero_rate (emi p : ℚ) (k : ℕ) :
    balAfter (fun b => b * 0) emi p k = p - k * emi := by
  induction k with
  | zero => simp [balAfter]
  | succ n ih =>
    simp only [balAfter, ih]
    push_cast
    ring

theorem balAfter_mono_emi (R p emi emi2 : ℚ) (hR : 0 ≤ R) (h : emi2 ≤ emi) (k : ℕ) :
    balAfter (fun b => b * R) emi p k ≤ balAfter (fun b => b * R) emi2 p k := by
  induction k with
  | zero => exact le_refl p
  | succ n ih =>
    simp only [balAfter]
    have h2 : balAfter (fun b => b * R) emi p n * R ≤ balAfter (fun b => b * R) emi2 p n * R :=
      mul_le_mul_of_nonneg_right ih hR
    linarith

theorem exact_emi_clears (p R : ℚ) (m : ℕ) (hm : 1 ≤ m) (hR : 0 ≤ R) :
    balAfter (fun b => b * R) (exactReducingEmi p R m) p m = 0 := by
  have hm0 : (m : ℚ) ≠ 0 := Nat.cast_ne_zero.mpr (by omega)
  by_cases h0 : R = 0
  · subst h0
    rw [balAfter_zero_rate, exactReducingEmi, if_pos rfl]
    field_simp
  · have hpow : 1 < (1 + R) ^ m :=
      one_lt_pow₀ (by cases lt_or_eq_of_le hR with
        | inl hlt => linarith
        | inr heq => exact absurd heq.symm h0) (by omega)
    have hne : (1 + R) ^ m - 1 ≠ 0 := sub_ne_zero.mpr (by linarith)
    rw [balAfter_reducing_closed R _ p h0 m, exactReducingEmi, if_neg h0]
    field_simp
    ring

theorem amort_server_length (p r : ℚ) (m : ℕ) (meth : String) :
    (calculate_amortization_schedule_server p r m meth).length = m := by
  simp [calculate_amortization_schedule_server]

theorem amort_routes_length (p r : ℚ) (m : ℕ) (meth : String) :
    (generate_amortization_schedule_routes_core p r m meth).length = m := by
  simp [generate_amortization_schedule_routes_core]

theorem range_map_getLast {α : Type} (f : ℕ → α) (m : ℕ) (hm : 1 ≤ m) :
    ((List.range m).map f).getLast? = some (f (m - 1)) := by
  obtain ⟨n, rfl⟩ : ∃ n, m = n + 1 := ⟨m - 1, by omega⟩
  rw [List.range_succ, List.map_append]
  simp

theorem amort_server_last_balance (p r : ℚ) (m : ℕ) (meth : String) (hm : 1 ≤ m) :
    ((calculate_amortization_schedule_server p r m meth).map AmortEntry.balance).getLast? =
      some (round2 (max 0 (balAfter
        (amortInterest meth (r / 12 / 100) (amortEmiData p r m meth).total_interest m)
        (amortEmiData p r m meth).monthly_emi p m))) := by
  unfold calculate_amortization_schedule_server
  rw [List.map_map, range_map_getLast _ m hm]
  simp only [Function.comp]
  rw [show m - 1 + 1 = m from by omega]

/-- Claim C6, counterexample: at principal=1000, annual_rate=12,
months=10 with the default reducing-balance method, the exact monthly
installment 105.58207… rounds DOWN to 105.58, and the shortfall
compounds: the schedule's final balance is 0.02 — more than one cent
away from 0, refuting the universal one-cent property. -/
theorem c6_counterexample :
    (calculate_amortization_schedule_server 1000 12 10 "reducing_balance").length = 10 ∧
    ((calculate_amortization_schedule_server 1000 12 10 "reducing_balance").map
      AmortEntry.balance).getLast? = some (1 / 50) ∧
    (1 / 100 : ℚ) < 1 / 50 := by
  refine ⟨amort_server_length 1000 12 10 "reducing_balance", ?_, by norm_num⟩
  rw [amort_server_last_balance 1000 12 10 "reducing_balance" (by norm_num)]
  rw [balAfter_congr _ (fun b => b * (12 / 12 / 100))
    (fun b => amortInterest_reducing (12 / 12 / 100) _ 10 b) _ _ 10]
  have hemi : (amortEmiData 1000 12 10 "reducing_balance").monthly_emi = 5279 / 50 := by
    norm_num [amortEmiData, calculate_reducing_balance_emi, round2]
  rw [hemi, balAfter_reducing_closed _ _ _ (by norm_num) 10]
  rw [max_eq_right (by norm_num)]
  norm_num [round2]

/-- Claim C6, amended: for every principal > 0, rate ≥ 0, months ≥ 1
and any method string, both amortization implementations return exactly
`months` entries; and for the reducing-balance method of the `server.py`
schedule, whenever the two-decimal rounding does not round the monthly
installment below its exact value, the final entry's balance is exactly
0 (hence within one cent).  Without that proviso the property fails:
rounding the installment down can leave a final balance more than one
cent from 0 (0.02 at principal=1000, rate=12, months=10). -/
theorem c6_amortization (p r : ℚ) (m : ℕ) (meth : String) (hm : 1 ≤ m) (hp : 0 < p)
    (hr : 0 ≤ r)
    (hemi : exactReducingEmi p (r / 12 / 100) m ≤
      (calculate_reducing_balance_emi p r m).monthly_emi) :
    (calculate_amortization_schedule_server p r m meth).length = m ∧
    (generate_amortization_schedule_routes_core p r m meth).length = m ∧
    ((calculate_amortization_schedule_server p r m "reducing_balance").map
      AmortEntry.balance).getLast? = some 0 := by
  refine ⟨amort_server_length p r m meth, amort_routes_length p r m meth, ?_⟩
  rw [amort_server_last_balance p r m "reducing_balance" hm]
  have hR : (0 : ℚ) ≤ r / 12 / 100 := by positivity
  rw [balAfter_congr _ (fun b => b * (r / 12 / 100))
    (fun b => amortInterest_reducing (r / 12 / 100) _ m b) _ _ m]
  have hemi' : exactReducingEmi p (r / 12 / 100) m ≤
      (amortEmiData p r m "reducing_balance").monthly_emi := by
    have h : amortEmiData p r m "reducing_balance" = calculate_reducing_balance_emi p r m := by
      simp [amortEmiData]
    rw [h]
    exact hemi
  have h2 : balAfter (fun b => b * (r / 12 / 100))
      (amortEmiData p r m "reducing_balance").monthly_emi p m ≤ 0 :=
    calc balAfter (fun b => b * (r / 12 / 100))
          (amortEmiData p r m "reducing_balance").monthly_emi p m ≤
        balAfter (fun b => b * (r / 12 / 100)) (exactReducingEmi p (r / 12 / 100) m) p m :=
          balAfter_mono_emi _ _ _ _ hR hemi' m
      _ = 0 := exact_emi_clears p _ m hm hR
  rw [max_eq_left h2, round2_zero]

theorem c6_amortization_witness :
    1 ≤ 6 ∧ (0 : ℚ) < 1000 ∧ (0 : ℚ) ≤ 12 ∧
    exactReducingEmi 1000 ((12 : ℚ) / 12 / 100) 6 ≤
      (calculate_reducing_balance_emi 1000 12 6).monthly_emi ∧
    ((calculate_amortization_schedule_server 1000 12 6 "simple_interest").length = 6 ∧
      (generate_amortization_schedule_routes_core 1000 12 6 "simple_interest").length = 6 ∧
      ((calculate_amortization_schedule_server 1000 12 6 "reducing_balance").map
        AmortEntry.balance).getLast? = some 0) :=
  ⟨by norm_num, by norm_num, by norm_num,
    by norm_num [exactReducingEmi, calculate_reducing_balance_emi, round2],
    c6_amortization 1000 12 6 "simple_interest" (by norm_num) (by norm_num) (by norm_num)
      (by norm_num [exactReducingEmi, calculate_reducing_balance_emi, round2])⟩

/-! ## Calendar arithmetic lemmas -/

theorem isLeap_eq_true_iff (y : ℤ) :
    isLeap y = true ↔ (y % 4 = 0 ∧ (y % 100 ≠ 0 ∨ y % 400 = 0)) := by
  simp [isLeap, Bool.and_eq_true, Bool.or_eq_true, beq_iff_eq, bne_iff_ne]

theorem daysBeforeYear_succ_leap (y : ℤ) (hL : isLeap y = true) :
    daysBeforeYear (y + 1) = daysBeforeYear y + 366 := by
  rw [isLeap_eq_true_iff] at hL
  unfold daysBeforeYear
  omega

theorem daysBeforeYear_succ_nonleap (y : ℤ) (hL : isLeap y = false) :
    daysBeforeYear (y + 1) = daysBeforeYear y + 365 := by
  have h2 : ¬ (y % 4 = 0 ∧ (y % 100 ≠ 0 ∨ y % 400 = 0)) := by
    rw [← isLeap_eq_true_iff, hL]
    exact Bool.false_ne_true
  unfold daysBeforeYear
  omega

theorem daysBeforeYear_mono {a b : ℤ} (h : a ≤ b) : daysBeforeYear a ≤ daysBeforeYear b := by
  unfold daysBeforeYear
  omega

theorem daysInMonth_pos (y m : ℤ) : 1 ≤ daysInMonth y m := by
  unfold daysInMonth
  split_ifs <;> omega

theorem ordOffset_bounds (y m d : ℤ) (hm1 : 1 ≤ m) (hm2 : m ≤ 12) (hd1 : 1 ≤ d)
    (hd2 : d ≤ daysInMonth y m) :
    1 ≤ daysBeforeMonth y m + d ∧
    daysBeforeMonth y m + d ≤ (if isLeap y then 366 else 365) := by
  unfold daysInMonth at hd2
  unfold daysBeforeMonth daysBeforeMonthTable
  cases hL : isLeap y <;> simp only [hL] at hd2 ⊢ <;> interval_cases m <;> simp_all <;> omega

theorem dbm_step (y m : ℤ) (h1 : 1 ≤ m) (h2 : m ≤ 11) :
    daysBeforeMonth y m + daysInMonth y m = daysBeforeMonth y (m + 1) := by
  unfold daysBeforeMonth daysBeforeMonthTable daysInMonth
  cases hL : isLeap y <;> interval_cases m <;> simp <;> omega

theorem dbm_le_dbm (y : ℤ) {m m' : ℤ} (h1 : 1 ≤ m) (h : m ≤ m') (h2 : m' ≤ 12) :
    daysBeforeMonth y m ≤ daysBeforeMonth y m' := by
  have key : ∀ n : ℕ, ∀ k : ℤ, 1 ≤ k → k + n ≤ 12 →
      daysBeforeMonth y k ≤ daysBeforeMonth y (k + n) := by
    intro n
    induction n with
    | zero => intro k hk1 hk2; simp
    | succ i ih =>
      intro k hk1 hk2
      have ha := ih k hk1 (by push_cast at hk2 ⊢; omega)
      have hb : daysBeforeMonth y (k + i) + daysInMonth y (k + i) =
          daysBeforeMonth y (k + i + 1) :=
        dbm_step y (k + i) (by omega) (by push_cast at hk2; omega)
      have hc := daysInMonth_pos y (k + i)
      have hd : (k + ((i : ℕ) + 1 : ℕ) : ℤ) = k + (i : ℤ) + 1 := by push_cast; ring
      rw [hd]
      omega
  have h3 := key (m' - m).toNat m h1 (by omega)
  rw [show (m + ((m' - m).toNat : ℤ)) = m' by omega] at h3
  exact h3

theorem ordOffset_lt_of_month_lt (y ma mb da db : ℤ) (hma : 1 ≤ ma) (h : ma < mb)
    (hmb : mb ≤ 12) (hda : da ≤ daysInMonth y ma) (hdb : 1 ≤ db) :
    daysBeforeMonth y ma + da < daysBeforeMonth y mb + db := by
  have h1 := dbm_step y ma (by omega) (by omega)
  have h2 := dbm_le_dbm y (show (1 : ℤ) ≤ ma + 1 by omega) (show ma + 1 ≤ mb by omega) hmb
  omega

theorem toOrdinal_lt_of_dateLt {a b : Date} (ha : a.Valid) (hb : b.Valid) (h : dateLt a b) :
    toOrdinal a < toOrdinal b := by
  obtain ⟨hay, ham1, ham2, had1, had2⟩ := ha
  obtain ⟨hby, hbm1, hbm2, hbd1, hbd2⟩ := hb
  unfold toOrdinal
  rcases h with hy | ⟨hy, hm | ⟨hm, hd⟩⟩
  · have h1 := (ordOffset_bounds a.year a.month a.day ham1 ham2 had1 had2).2
    have h2 := (ordOffset_bounds b.year b.month b.day hbm1 hbm2 hbd1 hbd2).1
    have h4 := daysBeforeYear_mono (show a.year + 1 ≤ b.year by omega)
    cases hL : isLeap a.year
    · have h3 := daysBeforeYear_succ_nonleap a.year hL
      rw [hL] at h1
      simp only [Bool.false_eq_true, if_false] at h1
      omega
    · have h3 := daysBeforeYear_succ_leap a.year hL
      rw [hL] at h1
      simp only [if_true] at h1
      omega
  · have h5 := ordOffset_lt_of_month_lt b.year a.month b.month a.day b.day ham1 hm hbm2
      (hy ▸ had2) hbd1
    rw [hy]
    omega
  · rw [hy, hm]
    omega

theorem dateLe_iff (a b : Date) :
    dateLe a b ↔ dateLt a b ∨ (a.year = b.year ∧ a.month = b.month ∧ a.day = b.day) := by
  unfold dateLe dateLt
  omega

theorem not_dateLt_iff (a b : Date) : ¬ dateLt a b ↔ dateLe b a := by
  unfold dateLe dateLt
  omega

theorem toOrdinal_lt_iff {a b : Date} (ha : a.Valid) (hb : b.Valid) :
    toOrdinal a < toOrdinal b ↔ dateLt a b := by
  constructor
  · intro hlt
    by_contra hnot
    rw [not_dateLt_iff] at hnot
    rcases (dateLe_iff b a).mp hnot with hba | ⟨h1, h2, h3⟩
    · exact absurd (toOrdinal_lt_of_dateLt hb ha hba) (by omega)
    · unfold toOrdinal at hlt
      rw [h1, h2, h3] at hlt
      omega
  · exact toOrdinal_lt_of_dateLt ha hb

theorem addMonths_eval (d : Date) (k : ℤ) :
    addMonths d k = ⟨(12 * d.year + (d.month - 1) + k) / 12,
      (12 * d.year + (d.month - 1) + k) % 12 + 1,
      min d.day (daysInMonth ((12 * d.year + (d.month - 1) + k) / 12)
        ((12 * d.year + (d.month - 1) + k) % 12 + 1))⟩ := rfl

theorem addMonths_valid {d : Date} (hd : d.Valid) (k : ℤ) (hk : 0 ≤ k) :
    (addMonths d k).Valid := by
  obtain ⟨h1, h2, h3, h4, h5⟩ := hd
  rw [addMonths_eval]
  unfold Date.Valid
  dsimp only
  refine ⟨by omega, by omega, by omega, ?_, min_le_right _ _⟩
  exact le_min h4 (daysInMonth_pos _ _)

theorem rdMonths_def (start due : Date) :
    rdMonths start due =
      if dateLe (addMonths start (rawMonthsBetween start due)) due
      then rawMonthsBetween start due else rawMonthsBetween start due - 1 := rfl

theorem resolve_tenure_def (start due : Date) :
    resolve_tenure_months start due =
      if rdMonths start due + (if 0 < rdDays start due then 1 else 0) < 1 then 1
      else rdMonths start due + (if 0 < rdDays start due then 1 else 0) := rfl

theorem rdMonths_bracket {start due : Date} (hs : start.Valid) (hd : due.Valid)
    (hle : dateLe start due) :
    0 ≤ rdMonths start due ∧
    dateLe (addMonths start (rdMonths start due)) due ∧
    dateLt due (addMonths start (rdMonths start due + 1)) := by
  obtain ⟨hs1, hs2, hs3, hs4, hs5⟩ := hs
  obtain ⟨hd1, hd2, hd3, hd4, hd5⟩ := hd
  rw [rdMonths_def]
  set m0 := rawMonthsBetween start due with hm0
  have ht : 12 * start.year + (start.month - 1) + m0 = 12 * due.year + (due.month - 1) := by
    rw [hm0]
    unfold rawMonthsBetween
    ring
  have hA0 : addMonths start m0 =
      ⟨due.year, due.month, min start.day (daysInMonth due.year due.month)⟩ := by
    rw [addMonths_eval, ht]
    have hy : (12 * due.year + (due.month - 1)) / 12 = due.year := by omega
    have hm : (12 * due.year + (due.month - 1)) % 12 + 1 = due.month := by omega
    rw [hy, hm]
  rw [hA0]
  by_cases hA : dateLe ⟨due.year, due.month, min start.day (daysInMonth due.year due.month)⟩ due
  · rw [if_pos hA]
    refine ⟨?_, ?_, ?_⟩
    · rw [hm0]
      unfold rawMonthsBetween
      unfold dateLe at hle
      omega
    · rw [hA0]
      exact hA
    · rw [addMonths_eval]
      unfold dateLt
      dsimp only
      have ht2 : 12 * start.year + (start.month - 1) + (m0 + 1) =
          12 * due.year + due.month := by omega
      rw [ht2]
      by_cases hM : due.month ≤ 11
      · right
        exact ⟨by omega, Or.inl (by omega)⟩
      · left
        omega
  · rw [if_neg hA]
    have hB : due.day < min start.day (daysInMonth due.year due.month) := by
      unfold dateLe at hA
      dsimp only at hA
      omega
    have hm0pos : 1 ≤ m0 := by
      by_cases hsame : start.year = due.year ∧ start.month = due.month
      · exfalso
        have hdd : start.day ≤ due.day := by
          unfold dateLe at hle
          omega
        have hdim : start.day ≤ daysInMonth due.year due.month := by
          rw [← hsame.1, ← hsame.2]
          exact hs5
        omega
      · rw [hm0]
        unfold rawMonthsBetween
        unfold dateLe at hle
        omega
    refine ⟨by omega, ?_, ?_⟩
    · rw [addMonths_eval]
      unfold dateLe
      dsimp only
      have ht3 : 12 * start.year + (start.month - 1) + (m0 - 1) =
          12 * due.year + (due.month - 2) := by omega
      rw [ht3]
      by_cases hM : 2 ≤ due.month
      · right
        exact ⟨by omega, Or.inl (by omega)⟩
      · left
        omega
    · rw [show m0 - 1 + 1 = m0 from by ring, hA0]
      unfold dateLt
      dsimp only
      right
      exact ⟨rfl, Or.inr ⟨rfl, by omega⟩⟩

/-- Claim C9: for valid dates with the due date not before the start,
the months part computed by the tenure resolver is exactly the count of
whole calendar months between start and due (`addMonths start m ≤ due <
addMonths start (m+1)`), the day remainder is positive exactly when the
month anchor falls strictly before the due date (rounding partial
months up), the resolved tenure is that count plus one for a positive
remainder clamped to a minimum of 1 — and in particular start
2024-01-01 with due 2024-06-15 resolves to 6 (witness). -/
theorem c9_tenure_resolution (start due : Date) (hs : start.Valid) (hd : due.Valid)
    (hle : dateLe start due) :
    dateLe (addMonths start (rdMonths start due)) due ∧
    dateLt due (addMonths start (rdMonths start due + 1)) ∧
    (0 < rdDays start due ↔ dateLt (addMonths start (rdMonths start due)) due) ∧
    resolve_tenure_months start due =
      max 1 (rdMonths start due +
        (if dateLt (addMonths start (rdMonths start due)) due then 1 else 0)) ∧
    1 ≤ resolve_tenure_months start due := by
  obtain ⟨hm0, hbr1, hbr2⟩ := rdMonths_bracket hs hd hle
  have hvdtm : (addMonths start (rdMonths start due)).Valid := addMonths_valid hs _ hm0
  have hiff : 0 < rdDays start due ↔ dateLt (addMonths start (rdMonths start due)) due := by
    unfold rdDays
    rw [sub_pos]
    exact toOrdinal_lt_iff hvdtm hd
  refine ⟨hbr1, hbr2, hiff, ?_, ?_⟩
  · rw [resolve_tenure_def, ite_lt_one_eq_max]
    simp only [hiff]
  · rw [resolve_tenure_def]
    split_ifs <;> omega

theorem c9_tenure_resolution_witness :
    (⟨2024, 1, 1⟩ : Date).Valid ∧ (⟨2024, 6, 15⟩ : Date).Valid ∧
    dateLe ⟨2024, 1, 1⟩ ⟨2024, 6, 15⟩ ∧
    resolve_tenure_months ⟨2024, 1, 1⟩ ⟨2024, 6, 15⟩ = 6 ∧
    (dateLe (addMonths ⟨2024, 1, 1⟩ (rdMonths ⟨2024, 1, 1⟩ ⟨2024, 6, 15⟩)) ⟨2024, 6, 15⟩ ∧
      dateLt ⟨2024, 6, 15⟩
        (addMonths ⟨2024, 1, 1⟩ (rdMonths ⟨2024, 1, 1⟩ ⟨2024, 6, 15⟩ + 1)) ∧
      (0 < rdDays ⟨2024, 1, 1⟩ ⟨2024, 6, 15⟩ ↔
        dateLt (addMonths ⟨2024, 1, 1⟩ (rdMonths ⟨2024, 1, 1⟩ ⟨2024, 6, 15⟩))
          ⟨2024, 6, 15⟩) ∧
      resolve_tenure_months ⟨2024, 1, 1⟩ ⟨2024, 6, 15⟩ =
        max 1 (rdMonths ⟨2024, 1, 1⟩ ⟨2024, 6, 15⟩ +
          (if dateLt (addMonths ⟨2024, 1, 1⟩ (rdMonths ⟨2024, 1, 1⟩ ⟨2024, 6, 15⟩))
              ⟨2024, 6, 15⟩ then 1 else 0)) ∧
      1 ≤ resolve_tenure_months ⟨2024, 1, 1⟩ ⟨2024, 6, 15⟩) :=
  ⟨by decide, by decide, by decide, by decide,
    c9_tenure_resolution ⟨2024, 1, 1⟩ ⟨2024, 6, 15⟩ (by decide) (by decide) (by decide)⟩
